import Mathlib

/-!
Verification of the core time-allocation calculations of
src/life_dashboard_app.py.

The Python core works on floats and dicts; we embed it over the exact
rationals (ℚ) and association lists with Python-dict semantics
(insertion order preserved, insert overwrites the value at an existing
key in place, lookup finds the unique binding).  Calendar dates are
embedded as day numbers (ℤ): Python's `(today - dob).days` is exactly
the difference of day numbers.  A Python `KeyError` (the failure mode
of `hours_per_unit` on an unrecognized unit) is embedded as `none`.
-/

/-- A Python dict from category name to a daily-hours value,
as an insertion-ordered association list with unique keys. -/
abbrev CatMap := List (String × ℚ)

/-- Dict lookup: the value at the first (and, for maps built by
`dictInsert`, only) binding of the key. -/
def dictGet : CatMap → String → Option ℚ
  | [], _ => none
  | p :: rest, k => if p.1 = k then some p.2 else dictGet rest k

/-- Python dict assignment `m[k] = v`: overwrite in place if the key is
present, append otherwise. -/
def dictInsert : CatMap → String → ℚ → CatMap
  | [], k, v => [(k, v)]
  | p :: rest, k, v => if p.1 = k then (k, v) :: rest else p :: dictInsert rest k v

/-- The keys of the dict, in order. -/
def dictKeys (m : CatMap) : List String := m.map Prod.fst

/-- Python `sum(m.values())`. -/
def sumVals (m : CatMap) : ℚ := (m.map Prod.snd).sum

/-- Python's built-in `max` of two rationals, written as an explicit
conditional so that closed instances evaluate by reduction. -/
def pymax (a b : ℚ) : ℚ := if a ≤ b then b else a

theorem pymax_eq_max (a b : ℚ) : pymax a b = max a b := (max_def a b).symm

/-- The explicit inputs of the dashboard: sidebar widget values
(lines 35-75 of the source).  `dob` is the date of birth as a day
number; `custom_raw` is the ordered list of (name, hours) pairs typed
into the custom-category widgets, before the empty-name filter. -/
structure Inputs where
  dob : ℤ
  expected_age : ℚ
  job_hours : ℚ
  eating_hours : ℚ
  travel_hours : ℚ
  sleep_hours : ℚ
  exercise_hours : ℚ
  family_hours : ℚ
  custom_raw : List (String × ℚ)
deriving DecidableEq

/-- Lines 61-75: build the `custom_categories` dict, dropping pairs
whose name is empty (`if cat_name:`), later duplicates overwriting
earlier ones. -/
def custom_categories (raw : List (String × ℚ)) : CatMap :=
  raw.foldl (fun acc p => if p.1 = "" then acc else dictInsert acc p.1 p.2) []

/-- Lines 79-86: `hours_per_unit`.  The Python dict lookup raises
`KeyError` on an unrecognized unit name; that is `none` here. -/
def hours_per_unit (unit : String) : Option ℚ :=
  if unit = "Hours" then some 1
  else if unit = "Days" then some 24
  else if unit = "Weeks" then some (24 * 7)
  else if unit = "Months" then some (24 * 30.4375)
  else if unit = "Years" then some (24 * 365.25)
  else none

/-- The conversion the source performs at every use of the factor
(lines 157-158, 230-231): hours divided by the unit factor. -/
def convert_value (h : ℚ) (unit : String) : Option ℚ :=
  (hours_per_unit unit).map (fun f => h / f)

/-- Line 92: `age_days = (today - dob).days`. -/
def age_days (today dob : ℤ) : ℤ := today - dob

/-- Line 91: `age_years = (today - dob).days / 365.25`. -/
def age_years (today dob : ℤ) : ℚ := (age_days today dob : ℚ) / 365.25

/-- Line 93: `years_left = max(expected_age - age_years, 0)`. -/
def years_left (I : Inputs) (today : ℤ) : ℚ :=
  pymax (I.expected_age - age_years today I.dob) 0

/-- Line 94: `days_left = max((expected_age * 365.25) - age_days, 0)`. -/
def days_left (I : Inputs) (today : ℤ) : ℚ :=
  pymax (I.expected_age * 365.25 - (age_days today I.dob : ℚ)) 0

/-- Line 95: `hours_left = days_left * 24`. -/
def hours_left (I : Inputs) (today : ℤ) : ℚ := days_left I today * 24

/-- Line 96: `weeks_left = days_left / 7`. -/
def weeks_left (I : Inputs) (today : ℤ) : ℚ := days_left I today / 7

/-- Line 97: `months_left = days_left / 30.4375`. -/
def months_left (I : Inputs) (today : ℤ) : ℚ := days_left I today / 30.4375

/-- Lines 100-102: sum of the six built-in hour inputs plus
`sum(custom_categories.values())`. -/
def total_committed_hours (I : Inputs) : ℚ :=
  I.job_hours + I.eating_hours + I.travel_hours + I.sleep_hours +
    I.exercise_hours + I.family_hours + sumVals (custom_categories I.custom_raw)

/-- Line 103: `free_hours_per_day = max(0.0, 24.0 - total_committed_hours)`. -/
def free_hours_per_day (I : Inputs) : ℚ :=
  pymax 0 (24 - total_committed_hours I)

/-- Lines 107-114: the dict literal of the six built-in categories. -/
def builtin_categories (I : Inputs) : CatMap :=
  [("Working", I.job_hours), ("Eating", I.eating_hours),
   ("Traveling", I.travel_hours), ("Sleeping", I.sleep_hours),
   ("Exercise", I.exercise_hours), ("Friends/Family", I.family_hours)]

/-- Lines 116-117: merge the custom categories into the built-ins
(`categories[name] = hrs` for each custom item, in order). -/
def merged_categories (I : Inputs) : CatMap :=
  (custom_categories I.custom_raw).foldl
    (fun acc p => dictInsert acc p.1 p.2) (builtin_categories I)

/-- Lines 119-120: add the "Free Time" entry when
`free_hours_per_day > 0`. -/
def categories (I : Inputs) : CatMap :=
  if 0 < free_hours_per_day I then
    dictInsert (merged_categories I) "Free Time" (free_hours_per_day I)
  else merged_categories I

/-- Line 125: `time_spent = {k: v * age_days for k, v in categories.items()}`. -/
def time_spent (I : Inputs) (today : ℤ) : CatMap :=
  (categories I).map (fun p => (p.1, p.2 * (age_days today I.dob : ℚ)))

/-- Line 127: `time_future = {k: v * days_left for k, v in categories.items()}`. -/
def time_future (I : Inputs) (today : ℤ) : CatMap :=
  (categories I).map (fun p => (p.1, p.2 * days_left I today))

/-- Line 258: the condition `total_committed_hours > 24` under which the
over-commitment warning is reported to the user. -/
def is_over_committed (I : Inputs) : Bool :=
  decide (24 < total_committed_hours I)

/-- One row of the detailed time summary (lines 228-241): spent and
remaining values in the display unit, and the two percentages. -/
structure SummaryRow where
  spent_val : ℚ
  rem_val : ℚ
  pct_spent : ℚ
  pct_rem : ℚ
deriving DecidableEq

/-- Lines 230-234: build one summary row from the unit factor and the
spent/remaining hour totals.  Python's `if total_val` tests
`total_val ≠ 0`. -/
def mkSummaryRow (factor spent_h remaining_h : ℚ) : SummaryRow :=
  let spent_val := spent_h / factor
  let rem_val := remaining_h / factor
  let total_val := spent_val + rem_val
  ⟨spent_val, rem_val,
    if total_val ≠ 0 then spent_val / total_val * 100 else 0,
    if total_val ≠ 0 then rem_val / total_val * 100 else 0⟩

/-- Lines 227-241: the summary table for one unit factor, one row per
category, pairing each spent entry with `time_future.get(activity, 0)`. -/
def summary_rows (I : Inputs) (today : ℤ) (factor : ℚ) :
    List (String × SummaryRow) :=
  (time_spent I today).map (fun p =>
    (p.1, mkSummaryRow factor p.2 ((dictGet (time_future I today) p.1).getD 0)))

/-- The full computed result handed to the presentation layer. -/
structure DashboardResult where
  res_age_years : ℚ
  res_age_days : ℤ
  res_years_left : ℚ
  res_days_left : ℚ
  res_hours_left : ℚ
  res_weeks_left : ℚ
  res_months_left : ℚ
  res_categories : CatMap
  res_time_spent : CatMap
  res_time_future : CatMap
  res_free_hours : ℚ
  res_over_committed : Bool
deriving DecidableEq

/-- The whole core computation (lines 90-127 and 258) as one function
of the sidebar inputs and of the day number the source reads from the
system clock at line 90 (`today = date.today()`). -/
def runDashboard (I : Inputs) (today : ℤ) : DashboardResult :=
  ⟨age_years today I.dob, age_days today I.dob, years_left I today,
   days_left I today, hours_left I today, weeks_left I today,
   months_left I today, categories I, time_spent I today,
   time_future I today, free_hours_per_day I, is_over_committed I⟩

/-! ## Association-list lemmas -/

theorem dictGet_dictInsert (m : CatMap) (k : String) (v : ℚ) (k2 : String) :
    dictGet (dictInsert m k v) k2 = if k = k2 then some v else dictGet m k2 := by
  induction m with
  | nil => simp [dictInsert, dictGet]
  | cons p rest ih =>
      by_cases hp : p.1 = k
      · simp only [dictInsert, if_pos hp, dictGet]
        by_cases hk : k = k2
        · simp [hk]
        · have : ¬ p.1 = k2 := by rw [hp]; exact hk
          simp [this, hk]
      · simp only [dictInsert, if_neg hp, dictGet]
        by_cases hk2 : p.1 = k2
        · have : ¬ k = k2 := fun h => hp (hk2 ▸ h ▸ rfl)
          simp [hk2, this]
        · simp [hk2, ih]

theorem dictGet_append (m1 m2 : CatMap) (k : String) :
    dictGet (m1 ++ m2) k = (dictGet m1 k).or (dictGet m2 k) := by
  induction m1 with
  | nil => simp [dictGet]
  | cons p rest ih =>
      by_cases hp : p.1 = k
      · simp [dictGet, hp]
      · simp [dictGet, hp, ih]

theorem dictGet_eq_none_of_not_mem (m : CatMap) (k : String)
    (h : k ∉ dictKeys m) : dictGet m k = none := by
  induction m with
  | nil => simp [dictGet]
  | cons p rest ih =>
      simp only [dictKeys, List.map_cons, List.mem_cons] at h
      push_neg at h
      have hp : ¬ p.1 = k := fun he => h.1 he.symm
      simp only [dictGet, if_neg hp]
      exact ih (by simpa [dictKeys] using h.2)

theorem mem_dictKeys_dictInsert (m : CatMap) (k : String) (v : ℚ) (a : String) :
    a ∈ dictKeys (dictInsert m k v) ↔ a ∈ dictKeys m ∨ a = k := by
  induction m with
  | nil => simp [dictInsert, dictKeys]
  | cons p rest ih =>
      by_cases hp : p.1 = k
      · simp only [dictInsert, if_pos hp, dictKeys, List.map_cons, List.mem_cons]
        constructor
        · rintro (h | h)
          · exact Or.inr h
          · exact Or.inl (Or.inr h)
        · rintro ((h | h) | h)
          · exact Or.inl (hp ▸ h)
          · exact Or.inr h
          · exact Or.inl h
      · simp only [dictInsert, if_neg hp, dictKeys, List.map_cons, List.mem_cons]
        rw [show (List.map Prod.fst (dictInsert rest k v)) = dictKeys (dictInsert rest k v) from rfl]
        rw [ih]
        simp [dictKeys, or_assoc]

theorem dictKeys_nodup_dictInsert (m : CatMap) (k : String) (v : ℚ)
    (h : (dictKeys m).Nodup) : (dictKeys (dictInsert m k v)).Nodup := by
  induction m with
  | nil => simp [dictInsert, dictKeys]
  | cons p rest ih =>
      simp only [dictKeys, List.map_cons, List.nodup_cons] at h
      by_cases hp : p.1 = k
      · simp only [dictInsert, if_pos hp, dictKeys, List.map_cons, List.nodup_cons]
        exact ⟨hp ▸ h.1, h.2⟩
      · simp only [dictInsert, if_neg hp, dictKeys, List.map_cons, List.nodup_cons]
        refine ⟨?_, ih h.2⟩
        intro hmem
        rcases (mem_dictKeys_dictInsert rest k v p.1).mp hmem with h1 | h1
        · exact h.1 h1
        · exact hp h1

/-- With no duplicate keys, the first binding found from the back is the
first binding found from the front. -/
theorem dictGet_reverse (m : CatMap) (k : String)
    (h : (dictKeys m).Nodup) : dictGet m.reverse k = dictGet m k := by
  induction m with
  | nil => rfl
  | cons p rest ih =>
      simp only [dictKeys, List.map_cons, List.nodup_cons] at h
      rw [List.reverse_cons, dictGet_append]
      by_cases hp : p.1 = k
      · have hrest : dictGet rest k = none := by
          apply dictGet_eq_none_of_not_mem
          intro hmem
          exact h.1 (hp ▸ hmem)
        have hrev : dictGet rest.reverse k = none := by
          apply dictGet_eq_none_of_not_mem
          intro hmem
          have : k ∈ dictKeys rest := by
            simpa [dictKeys, List.map_reverse] using hmem
          exact h.1 (hp ▸ this)
        simp [dictGet, hp, hrev, hrest]
      · rw [ih h.2]
        cases hg : dictGet rest k with
        | none => simp [dictGet, hp, hg]
        | some v => simp [dictGet, hp, hg]

/-- Looking up after folding dict inserts over a list: the last binding
in the list wins, else the base map answers. -/
theorem dictGet_foldl_dictInsert (cs : List (String × ℚ)) (base : CatMap)
    (k : String) :
    dictGet (cs.foldl (fun acc p => dictInsert acc p.1 p.2) base) k =
      (dictGet cs.reverse k).or (dictGet base k) := by
  induction cs generalizing base with
  | nil => simp [dictGet]
  | cons p rest ih =>
      rw [List.foldl_cons, ih, List.reverse_cons, dictGet_append]
      rw [dictGet_dictInsert]
      have hsingle : dictGet [p] k = if p.1 = k then some p.2 else none := by
        simp [dictGet]
      rw [hsingle]
      cases hr : dictGet rest.reverse k with
      | none => split <;> simp
      | some v => simp

theorem dictKeys_nodup_custom_aux (raw : List (String × ℚ)) (acc : CatMap)
    (h : (dictKeys acc).Nodup) :
    (dictKeys (raw.foldl
      (fun acc p => if p.1 = "" then acc else dictInsert acc p.1 p.2) acc)).Nodup := by
  induction raw generalizing acc with
  | nil => simpa using h
  | cons p rest ih =>
      rw [List.foldl_cons]
      by_cases hp : p.1 = ""
      · rw [if_pos hp]; exact ih acc h
      · rw [if_neg hp]
        exact ih _ (dictKeys_nodup_dictInsert acc p.1 p.2 h)

theorem dictKeys_nodup_custom (raw : List (String × ℚ)) :
    (dictKeys (custom_categories raw)).Nodup :=
  dictKeys_nodup_custom_aux raw [] (by simp [dictKeys])

theorem not_mem_custom_aux (raw : List (String × ℚ)) (acc : CatMap)
    (k : String) (hraw : ∀ p ∈ raw, p.1 ≠ k) (hacc : k ∉ dictKeys acc) :
    k ∉ dictKeys (raw.foldl
      (fun acc p => if p.1 = "" then acc else dictInsert acc p.1 p.2) acc) := by
  induction raw generalizing acc with
  | nil => simpa using hacc
  | cons p rest ih =>
      rw [List.foldl_cons]
      have hrest : ∀ q ∈ rest, q.1 ≠ k := fun q hq => hraw q (List.mem_cons_of_mem p hq)
      by_cases hp : p.1 = ""
      · rw [if_pos hp]; exact ih acc hrest hacc
      · rw [if_neg hp]
        apply ih _ hrest
        intro hmem
        rcases (mem_dictKeys_dictInsert acc p.1 p.2 k).mp hmem with h1 | h1
        · exact hacc h1
        · exact hraw p (List.mem_cons_self p rest) h1.symm

theorem not_mem_custom (raw : List (String × ℚ)) (k : String)
    (hraw : ∀ p ∈ raw, p.1 ≠ k) : k ∉ dictKeys (custom_categories raw) :=
  not_mem_custom_aux raw [] k hraw (by simp [dictKeys])

/-- Splitting a dict sum at the first binding of a key. -/
theorem sumVals_split (m : CatMap) (k : String) (v : ℚ)
    (h : dictGet m k = some v) :
    sumVals m = v + sumVals (m.eraseP (fun p => p.1 == k)) := by
  induction m with
  | nil => simp [dictGet] at h
  | cons p rest ih =>
      by_cases hp : p.1 = k
      · simp only [dictGet, if_pos hp, Option.some.injEq] at h
        rw [List.eraseP_cons_of_pos (by simpa using hp)]
        simp [sumVals, h]
      · simp only [dictGet, if_neg hp] at h
        rw [List.eraseP_cons_of_neg (by simpa using hp)]
        have hrec := ih h
        simp only [sumVals, List.map_cons, List.sum_cons] at hrec ⊢
        rw [hrec]
        ring

/-- Lookup commutes with scaling every value by a constant. -/
theorem dictGet_map_scale (m : CatMap) (c : ℚ) (k : String) :
    dictGet (m.map (fun p => (p.1, p.2 * c))) k = (dictGet m k).map (· * c) := by
  induction m with
  | nil => simp [dictGet]
  | cons p rest ih =>
      by_cases hp : p.1 = k
      · simp [dictGet, hp]
      · simp [dictGet, hp, ih]

theorem dictKeys_map_scale (m : CatMap) (c : ℚ) :
    dictKeys (m.map (fun p => (p.1, p.2 * c))) = dictKeys m := by
  simp [dictKeys, List.map_map, Function.comp]

theorem sumVals_map_scale (m : CatMap) (c : ℚ) :
    sumVals (m.map (fun p => (p.1, p.2 * c))) = sumVals m * c := by
  induction m with
  | nil => simp [sumVals]
  | cons p rest ih =>
      simp only [sumVals, List.map_cons, List.sum_cons] at *
      rw [ih]
      ring

/-! ## Concrete inputs used by witnesses and counterexamples -/

/-- A user born on day 0, expecting to live 4 years (1461 days), with an
8-hour job and no other commitments. -/
def sampleInputs : Inputs := ⟨0, 4, 8, 0, 0, 0, 0, 0, []⟩

/-- A user whose six built-in inputs sum to 25 hours per day. -/
def overInputs : Inputs := ⟨0, 63, 10, 10, 5, 0, 0, 0, []⟩

/-- Built-ins summing to 21 hours plus a custom category literally named
"Free Time" at 3 hours, so the committed total is exactly 24. -/
def cexInputs : Inputs := ⟨0, 63, 8, 2, 1, 7, 1, 2, [("Free Time", 3)]⟩

/-- No built-in commitments, one custom category named "Free Time" at 5
hours per day. -/
def ftInputs : Inputs := ⟨0, 63, 0, 0, 0, 0, 0, 0, [("Free Time", 5)]⟩

/-! ## Claim theorems -/

/-- C1: for every date-of-birth and expected age,
daysRemaining = max(0, expectedAgeYears × 365.25 − daysLived) and
hoursRemaining = daysRemaining × 24; and once the expected age has been
reached or exceeded (daysLived ≥ expectedAgeYears × 365.25), every
remaining figure — years, days, hours, weeks, months — is exactly 0. -/
theorem C1_remaining_figures (I : Inputs) (t : ℤ) :
    days_left I t = max 0 (I.expected_age * 365.25 - (age_days t I.dob : ℚ))
    ∧ hours_left I t = days_left I t * 24
    ∧ (I.expected_age * 365.25 ≤ (age_days t I.dob : ℚ) →
        years_left I t = 0 ∧ days_left I t = 0 ∧ hours_left I t = 0 ∧
        weeks_left I t = 0 ∧ months_left I t = 0) := by
  refine ⟨by unfold days_left; rw [pymax_eq_max, max_comm], rfl, fun h => ?_⟩
  have hd : days_left I t = 0 := by
    unfold days_left
    rw [pymax_eq_max, max_eq_right (by linarith)]
  have hy : years_left I t = 0 := by
    unfold years_left age_years age_days
    rw [pymax_eq_max, max_eq_right ?_]
    rw [sub_nonpos, le_div_iff₀ (by norm_num : (0:ℚ) < 365.25)]
    unfold age_days at h
    exact h
  exact ⟨hy, hd, by simp [hours_left, hd], by simp [weeks_left, hd],
    by simp [months_left, hd]⟩

/-- C1 witness: a person with expected age 4 years who has lived 2000
days has every remaining figure equal to 0. -/
theorem C1_remaining_figures_witness :
    years_left sampleInputs 2000 = 0 ∧ days_left sampleInputs 2000 = 0 ∧
    hours_left sampleInputs 2000 = 0 ∧ weeks_left sampleInputs 2000 = 0 ∧
    months_left sampleInputs 2000 = 0 :=
  (C1_remaining_figures sampleInputs 2000).2.2
    (by norm_num [sampleInputs, age_days])

/-- C2: every category of the final mapping gets
hoursSpent = dailyHours × daysLived and
hoursRemaining = dailyHours × daysRemaining, and the two output
mappings have exactly the keys of the category mapping. -/
theorem C2_allocation_totals (I : Inputs) (t : ℤ) (k : String) (v : ℚ)
    (hk : dictGet (categories I) k = some v) :
    dictGet (time_spent I t) k = some (v * (age_days t I.dob : ℚ))
    ∧ dictGet (time_future I t) k = some (v * days_left I t)
    ∧ dictKeys (time_spent I t) = dictKeys (categories I)
    ∧ dictKeys (time_future I t) = dictKeys (categories I) := by
  refine ⟨?_, ?_, dictKeys_map_scale _ _, dictKeys_map_scale _ _⟩
  · unfold time_spent
    rw [dictGet_map_scale, hk]
    rfl
  · unfold time_future
    rw [dictGet_map_scale, hk]
    rfl

/-- C2 witness: with the sample inputs after 461 days, "Working" (8
hours per day) has spent hours 8 × 461. -/
theorem C2_allocation_totals_witness :
    dictGet (time_spent sampleInputs 461) "Working" =
      some (8 * (age_days 461 sampleInputs.dob : ℚ)) := by
  refine (C2_allocation_totals sampleInputs 461 "Working" 8 ?_).1
  have hfree : free_hours_per_day sampleInputs = 16 := by
    norm_num [free_hours_per_day, total_committed_hours, sampleInputs,
      custom_categories, sumVals, pymax]
  unfold categories
  rw [hfree, if_pos (by norm_num : (0:ℚ) < 16)]
  simp [merged_categories, custom_categories, builtin_categories, sampleInputs,
    dictInsert, dictGet]

/-- C3 counterexample: with a custom category literally named
"Free Time" (3 hours) on top of 21 built-in hours, the committed total
is exactly 24 and freeHoursPerDay = 0, yet the final mapping still
contains a "Free Time" entry — the claim's "present iff
freeHoursPerDay > 0" fails. -/
theorem C3_free_time_cex :
    free_hours_per_day cexInputs = 0 ∧
    dictGet (categories cexInputs) "Free Time" = some 3 := by
  have hcust : custom_categories [("Free Time", 3)] = [("Free Time", 3)] := by
    simp [custom_categories, dictInsert]
  have hfree : free_hours_per_day cexInputs = 0 := by
    norm_num [free_hours_per_day, total_committed_hours, hcust, cexInputs,
      sumVals, pymax]
  refine ⟨hfree, ?_⟩
  unfold categories
  rw [hfree, if_neg (by norm_num)]
  simp [merged_categories, custom_categories, cexInputs, builtin_categories,
    dictInsert, dictGet]

/-- C3 (amended with the hypothesis that no custom category is named
"Free Time"): freeHoursPerDay = max(0, 24 − totalCommittedHoursPerDay),
it is never negative, a "Free Time" entry with exactly that rate is in
the mapping when it is positive, it is absent when it is 0, and in
particular absent when the committed total is exactly 24. -/
theorem C3_free_time_residual (I : Inputs)
    (hft : ∀ p ∈ I.custom_raw, p.1 ≠ "Free Time") :
    free_hours_per_day I = max 0 (24 - total_committed_hours I)
    ∧ 0 ≤ free_hours_per_day I
    ∧ (0 < free_hours_per_day I →
        dictGet (categories I) "Free Time" = some (free_hours_per_day I))
    ∧ (free_hours_per_day I = 0 → dictGet (categories I) "Free Time" = none)
    ∧ (total_committed_hours I = 24 →
        dictGet (categories I) "Free Time" = none) := by
  have hmerged : dictGet (merged_categories I) "Free Time" = none := by
    unfold merged_categories
    rw [dictGet_foldl_dictInsert]
    have hcust :
        dictGet (custom_categories I.custom_raw).reverse "Free Time" = none := by
      apply dictGet_eq_none_of_not_mem
      intro hmem
      apply not_mem_custom I.custom_raw "Free Time" hft
      simpa [dictKeys, List.map_reverse] using hmem
    rw [hcust]
    rfl
  have hnone : free_hours_per_day I = 0 →
      dictGet (categories I) "Free Time" = none := by
    intro hzero
    unfold categories
    rw [if_neg (by simp [hzero])]
    exact hmerged
  refine ⟨by unfold free_hours_per_day; rw [pymax_eq_max],
    by unfold free_hours_per_day; rw [pymax_eq_max]; exact le_max_left _ _,
    ?_, hnone, ?_⟩
  · intro hpos
    unfold categories
    rw [if_pos hpos, dictGet_dictInsert, if_pos rfl]
  · intro h24
    apply hnone
    unfold free_hours_per_day
    rw [h24]
    norm_num [pymax]

/-- C3 witness: the sample inputs commit 8 hours, so free time is 16
hours per day and the mapping's "Free Time" entry holds exactly it. -/
theorem C3_free_time_residual_witness :
    dictGet (categories sampleInputs) "Free Time" =
      some (free_hours_per_day sampleInputs) :=
  (C3_free_time_residual sampleInputs (by simp [sampleInputs])).2.2.1
    (by norm_num [free_hours_per_day, total_committed_hours, sampleInputs,
      custom_categories, sumVals, pymax])

/-- C4: when the committed daily hours exceed 24, the computation still
yields a complete result: freeHoursPerDay is exactly 0, the
over-commitment condition is reported true, and every category still
gets its spent and remaining totals computed as usual. -/
theorem C4_over_commitment (I : Inputs) (t : ℤ)
    (hover : 24 < total_committed_hours I) :
    free_hours_per_day I = 0
    ∧ is_over_committed I = true
    ∧ (∀ k v, dictGet (categories I) k = some v →
        dictGet (time_spent I t) k = some (v * (age_days t I.dob : ℚ))
        ∧ dictGet (time_future I t) k = some (v * days_left I t)) := by
  refine ⟨?_, ?_, ?_⟩
  · unfold free_hours_per_day
    rw [pymax_eq_max, max_eq_left (by linarith)]
  · simp [is_over_committed, hover]
  · intro k v hk
    constructor
    · unfold time_spent
      rw [dictGet_map_scale, hk]
      rfl
    · unfold time_future
      rw [dictGet_map_scale, hk]
      rfl

/-- C4 witness: inputs summing to 25 hours per day still yield
freeHoursPerDay = 0 and the over-commitment flag. -/
theorem C4_over_commitment_witness :
    free_hours_per_day overInputs = 0 ∧ is_over_committed overInputs = true := by
  have h := C4_over_commitment overInputs 100
    (by norm_num [total_committed_hours, overInputs, custom_categories, sumVals])
  exact ⟨h.1, h.2.1⟩

/-- Helper for C5: the percentage identities of one summary row. -/
theorem mkSummaryRow_pct (factor s r : ℚ) :
    (0 < (mkSummaryRow factor s r).spent_val + (mkSummaryRow factor s r).rem_val →
      (mkSummaryRow factor s r).pct_spent + (mkSummaryRow factor s r).pct_rem = 100)
    ∧ ((mkSummaryRow factor s r).spent_val + (mkSummaryRow factor s r).rem_val = 0 →
      (mkSummaryRow factor s r).pct_spent = 0 ∧ (mkSummaryRow factor s r).pct_rem = 0) := by
  simp only [mkSummaryRow]
  constructor
  · intro hpos
    have hne : s / factor + r / factor ≠ 0 := ne_of_gt hpos
    rw [if_pos hne, if_pos hne]
    have hsum : s / factor / (s / factor + r / factor) * 100 +
        r / factor / (s / factor + r / factor) * 100 =
        (s / factor + r / factor) / (s / factor + r / factor) * 100 := by
      ring
    rw [hsum, div_self hne, one_mul]
  · intro h0
    rw [if_neg (by simpa using h0), if_neg (by simpa using h0)]
    exact ⟨rfl, rfl⟩

/-- C5: for every row of the summary table (any category, any display
unit), if the converted spent value plus the converted remaining value
is positive then pctSpent + pctRemaining is exactly 100, and if that
total is 0 then both percentages are 0 — no division by zero ever
occurs. -/
theorem C5_percentages (I : Inputs) (t : ℤ) (u : String) (factor : ℚ)
    (hu : hours_per_unit u = some factor) (k : String) (row : SummaryRow)
    (hrow : (k, row) ∈ summary_rows I t factor) :
    (0 < row.spent_val + row.rem_val → row.pct_spent + row.pct_rem = 100)
    ∧ (row.spent_val + row.rem_val = 0 →
        row.pct_spent = 0 ∧ row.pct_rem = 0) := by
  rcases List.mem_map.mp hrow with ⟨p, hp, heq⟩
  injection heq with h1 h2
  rw [← h2]
  exact mkSummaryRow_pct factor p.2 _

/-- C5 witness: the "Working" row of the sample inputs after 461 days
in the Hours unit has percentages summing to exactly 100. -/
theorem C5_percentages_witness :
    (mkSummaryRow 1 3688 8000).pct_spent + (mkSummaryRow 1 3688 8000).pct_rem = 100 := by
  have hfree : free_hours_per_day sampleInputs = 16 := by
    norm_num [free_hours_per_day, total_committed_hours, sampleInputs,
      custom_categories, sumVals, pymax]
  have hcat : categories sampleInputs =
      [("Working", 8), ("Eating", 0), ("Traveling", 0), ("Sleeping", 0),
       ("Exercise", 0), ("Friends/Family", 0), ("Free Time", 16)] := by
    unfold categories
    rw [hfree, if_pos (by norm_num : (0:ℚ) < 16)]
    simp [merged_categories, custom_categories, builtin_categories,
      sampleInputs, dictInsert]
  have had : (age_days 461 sampleInputs.dob : ℚ) = 461 := by
    norm_num [age_days, sampleInputs]
  have hdl : days_left sampleInputs 461 = 1000 := by
    norm_num [days_left, sampleInputs, age_days, pymax]
  have hfut : dictGet (time_future sampleInputs 461) "Working" = some 8000 := by
    unfold time_future
    rw [dictGet_map_scale, hcat, hdl]
    simp [dictGet]
    norm_num
  refine (C5_percentages sampleInputs 461 "Hours" 1 rfl "Working"
    (mkSummaryRow 1 3688 8000) ?_).1 (by norm_num [mkSummaryRow])
  unfold summary_rows
  apply List.mem_map.mpr
  refine ⟨("Working", 3688), ?_, ?_⟩
  · unfold time_spent
    rw [hcat, had]
    simp
    norm_num
  · rw [hfut]
    rfl

/-- C6: when daysLived and daysRemaining are both positive, the total
spent hours divided by daysLived and the total remaining hours divided
by daysRemaining both equal the summed daily hours of the category
mapping (free time included). -/
theorem C6_rate_consistency (I : Inputs) (t : ℤ)
    (h1 : 0 < (age_days t I.dob : ℚ)) (h2 : 0 < days_left I t) :
    sumVals (time_spent I t) / (age_days t I.dob : ℚ) = sumVals (categories I)
    ∧ sumVals (time_future I t) / days_left I t = sumVals (categories I) := by
  constructor
  · unfold time_spent
    rw [sumVals_map_scale, mul_div_cancel_right₀ _ (ne_of_gt h1)]
  · unfold time_future
    rw [sumVals_map_scale, mul_div_cancel_right₀ _ (ne_of_gt h2)]

/-- C6 witness: with the sample inputs after 461 days, total spent
hours over days lived equals the summed daily category hours. -/
theorem C6_rate_consistency_witness :
    sumVals (time_spent sampleInputs 461) / (age_days 461 sampleInputs.dob : ℚ) =
      sumVals (categories sampleInputs) :=
  (C6_rate_consistency sampleInputs 461 (by norm_num [age_days, sampleInputs])
    (by norm_num [days_left, age_days, sampleInputs, pymax])).1

/-- C7 counterexample: at dob = day 0, reference day 2000 and expected
age 4 years (within the sane range when scaled: the inputs are valid,
dob is before the reference date and the expected age is positive), the
person has outlived the expectancy: daysLived + daysRemaining = 2000,
but expectedAgeYears × 365.25 = 1461, so the claimed identity fails. -/
theorem C7_lifespan_sum_cex :
    sampleInputs.dob ≤ 2000 ∧ 1 ≤ sampleInputs.expected_age ∧
    sampleInputs.expected_age ≤ 120 ∧
    (age_days 2000 sampleInputs.dob : ℚ) + days_left sampleInputs 2000 ≠
      max 0 (sampleInputs.expected_age * 365.25) := by
  refine ⟨by norm_num [sampleInputs], by norm_num [sampleInputs],
    by norm_num [sampleInputs], ?_⟩
  have hdl : days_left sampleInputs 2000 = 0 := by
    norm_num [days_left, sampleInputs, age_days, pymax]
  rw [hdl]
  norm_num [age_days, sampleInputs, max_def]

/-- C7 (amended): for every input with the date of birth not after the
reference date, daysLived + daysRemaining = max(daysLived,
expectedAgeYears × 365.25) — the implied total lifespan as long as the
expected age has not been exceeded, daysLived itself beyond that — and
the sum is never negative. -/
theorem C7_lifespan_sum (I : Inputs) (t : ℤ) (hdob : I.dob ≤ t) :
    (age_days t I.dob : ℚ) + days_left I t =
      max ((age_days t I.dob : ℚ)) (I.expected_age * 365.25)
    ∧ 0 ≤ (age_days t I.dob : ℚ) + days_left I t := by
  have had : (0:ℚ) ≤ (age_days t I.dob : ℚ) := by
    have h0 : (0:ℤ) ≤ age_days t I.dob := by
      unfold age_days
      omega
    exact_mod_cast h0
  have hdl : days_left I t =
      max (I.expected_age * 365.25 - (age_days t I.dob : ℚ)) 0 := by
    unfold days_left
    rw [pymax_eq_max]
  constructor
  · rw [hdl]
    rcases le_total (I.expected_age * 365.25) ((age_days t I.dob : ℚ)) with hc | hc
    · rw [max_eq_right (by linarith : I.expected_age * 365.25 -
        (age_days t I.dob : ℚ) ≤ 0), max_eq_left hc]
      ring
    · rw [max_eq_left (by linarith : (0:ℚ) ≤ I.expected_age * 365.25 -
        (age_days t I.dob : ℚ)), max_eq_right hc]
      ring
  · rw [hdl]
    have hmax := le_max_right (I.expected_age * 365.25 -
      (age_days t I.dob : ℚ)) (0:ℚ)
    linarith

/-- C7 witness: with the sample inputs after 461 days, the sum of days
lived and days remaining is the full implied lifespan. -/
theorem C7_lifespan_sum_witness :
    (age_days 461 sampleInputs.dob : ℚ) + days_left sampleInputs 461 =
      max ((age_days 461 sampleInputs.dob : ℚ))
        (sampleInputs.expected_age * 365.25) :=
  (C7_lifespan_sum sampleInputs 461 (by norm_num [sampleInputs])).1

/-- C8: the unit converter succeeds exactly on the five unit names,
dividing by the fixed factors 1, 24, 168, 730.5 and 8766, and yields
the InvalidUnit failure (`none`, a `KeyError` in the source) on every
other name. -/
theorem C8_unit_conversion (h : ℚ) (u : String) :
    (u = "Hours" → convert_value h u = some h)
    ∧ (u = "Days" → convert_value h u = some (h / 24))
    ∧ (u = "Weeks" → convert_value h u = some (h / 168))
    ∧ (u = "Months" → convert_value h u = some (h / 730.5))
    ∧ (u = "Years" → convert_value h u = some (h / 8766))
    ∧ (u ∉ (["Hours", "Days", "Weeks", "Months", "Years"] : List String) →
        convert_value h u = none) := by
  refine ⟨fun hu => ?_, fun hu => ?_, fun hu => ?_, fun hu => ?_,
    fun hu => ?_, fun hu => ?_⟩
  · subst hu
    simp [convert_value, hours_per_unit]
  · subst hu
    simp [convert_value, hours_per_unit]
  · subst hu
    have hw : (24 * 7 : ℚ) = 168 := by norm_num
    simp [convert_value, hours_per_unit, hw]
  · subst hu
    have hm : (24 * 30.4375 : ℚ) = 730.5 := by norm_num
    simp [convert_value, hours_per_unit, hm]
  · subst hu
    have hy : (24 * 365.25 : ℚ) = 8766 := by norm_num
    simp [convert_value, hours_per_unit, hy]
  · simp only [List.mem_cons, List.not_mem_nil, or_false, not_or] at hu
    obtain ⟨h1, h2, h3, h4, h5⟩ := hu
    simp [convert_value, hours_per_unit, h1, h2, h3, h4, h5]

/-- C8 witness: 5 hours convert to 5/24 days, and an unrecognized unit
name fails. -/
theorem C8_unit_conversion_witness : convert_value 5 "Days" = some (5 / 24) :=
  (C8_unit_conversion 5 "Days").2.1 rfl

/-- C9 counterexample: the source reads the system clock (line 90), so
the result is not a function of the explicit sidebar inputs alone: the
same explicit inputs evaluated at two different clock days give
different results. -/
theorem C9_determinism_cex :
    runDashboard sampleInputs 461 ≠ runDashboard sampleInputs 462 := by
  intro hEq
  have h2 := congrArg DashboardResult.res_age_days hEq
  simp only [runDashboard] at h2
  norm_num [age_days, sampleInputs] at h2

/-- C9 (amended): the core is a deterministic pure function of the
explicit inputs TOGETHER WITH the day the source reads from the system
clock at line 90; two runs agreeing on both produce equal results. -/
theorem C9_determinism (I1 I2 : Inputs) (t1 t2 : ℤ) (hI : I1 = I2)
    (ht : t1 = t2) : runDashboard I1 t1 = runDashboard I2 t2 := by
  rw [hI, ht]

/-- C9 witness: two runs on equal inputs and equal clock days agree. -/
theorem C9_determinism_witness :
    runDashboard sampleInputs 461 = runDashboard sampleInputs 461 :=
  C9_determinism sampleInputs sampleInputs 461 461 rfl rfl

/-- C10: when a custom category is literally named "Free Time" with h
hours (h being its effective value in the custom dict), h is counted in
the committed total — the custom dict's value sum splits as h plus the
sum over the other names — yet the final mapping's "Free Time" entry
holds the synthesized residual whenever the residual is positive; the
user-entered h survives into the output only when the residual is 0. -/
theorem C10_custom_free_time (I : Inputs) (h : ℚ)
    (hget : dictGet (custom_categories I.custom_raw) "Free Time" = some h) :
    sumVals (custom_categories I.custom_raw) =
      h + sumVals ((custom_categories I.custom_raw).eraseP
        (fun p => p.1 == "Free Time"))
    ∧ (0 < free_hours_per_day I →
        dictGet (categories I) "Free Time" = some (free_hours_per_day I))
    ∧ (free_hours_per_day I = 0 →
        dictGet (categories I) "Free Time" = some h) := by
  have hmerged : dictGet (merged_categories I) "Free Time" = some h := by
    unfold merged_categories
    rw [dictGet_foldl_dictInsert,
      dictGet_reverse _ _ (dictKeys_nodup_custom I.custom_raw), hget]
    rfl
  refine ⟨sumVals_split _ _ _ hget, ?_, ?_⟩
  · intro hpos
    unfold categories
    rw [if_pos hpos, dictGet_dictInsert, if_pos rfl]
  · intro hzero
    unfold categories
    rw [if_neg (by simp [hzero])]
    exact hmerged

/-- C10 witness: a custom "Free Time" entry of 5 hours with no other
commitments leaves a positive residual of 19 hours, and the output
"Free Time" entry holds the residual, not the entered 5. -/
theorem C10_custom_free_time_witness :
    dictGet (categories ftInputs) "Free Time" =
      some (free_hours_per_day ftInputs) := by
  have hget : dictGet (custom_categories ftInputs.custom_raw) "Free Time" =
      some 5 := by
    simp [custom_categories, ftInputs, dictInsert, dictGet]
  refine (C10_custom_free_time ftInputs 5 hget).2.1 ?_
  have hcust : custom_categories [(("Free Time" : String), (5:ℚ))] =
      [("Free Time", 5)] := by
    simp [custom_categories, dictInsert]
  have htot : total_committed_hours ftInputs = 5 := by
    norm_num [total_committed_hours, ftInputs, hcust, sumVals]
  unfold free_hours_per_day
  rw [htot]
  norm_num [pymax]
